import Mathlib

/-!
Verification of the LED-display coordinate-mapping layer and the cellular
automaton engine of `fresh_pico_project` (files `src/PanelConfig.h` and
`src/CellularAutomata.h`), via a shallow embedding of the relevant C++
functions as executable Lean definitions.
-/

/-! ## Panel configuration (`src/PanelConfig.h`) -/

/-- `PANEL_WIDTH` from `PanelConfig.h`. -/
def PANEL_WIDTH : Nat := 64

/-- `PANEL_HEIGHT` from `PanelConfig.h`. -/
def PANEL_HEIGHT : Nat := 64

/-- `PANEL_COUNT` from `PanelConfig.h`. -/
def PANEL_COUNT : Nat := 4

/-- `TOTAL_WIDTH = PANEL_WIDTH * 2`. -/
def TOTAL_WIDTH : Nat := PANEL_WIDTH * 2

/-- `TOTAL_HEIGHT = PANEL_HEIGHT * 2`. -/
def TOTAL_HEIGHT : Nat := PANEL_HEIGHT * 2

/-- The `PanelConfig` struct: logical grid position, physical chain
position, rotation code (0=normal, 1=90° CW, 2=180°, 3=270° CW). -/
structure PanelConfig where
  logicalPosition : Nat
  physicalPosition : Nat
  rotation : Nat
deriving DecidableEq, Repr

/-- The compiled-in descriptor list `PANEL_CONFIGS` from `PanelConfig.h`. -/
def PANEL_CONFIGS : List PanelConfig :=
  [⟨0, 3, 0⟩, ⟨1, 1, 0⟩, ⟨2, 2, 0⟩, ⟨3, 0, 0⟩]

/-- `getPanelConfig`: linear scan over `PANEL_CONFIGS` for a matching
`logicalPosition`; falls back to the first descriptor when none matches. -/
def getPanelConfig (logicalPanel : Nat) : PanelConfig :=
  match PANEL_CONFIGS.find? (fun c => c.logicalPosition == logicalPanel) with
  | some c => c
  | none => PANEL_CONFIGS.headD ⟨0, 0, 0⟩

/-- The rotation `switch` of `mapCoordinates`: cases 0-3; for any other
value the C code leaves `rotated_x`/`rotated_y` at their initializers
`local_x`/`local_y`. -/
def rotateLocal (rotation lx ly : Nat) : Nat × Nat :=
  match rotation with
  | 0 => (lx, ly)
  | 1 => (PANEL_WIDTH - 1 - ly, lx)
  | 2 => (PANEL_WIDTH - 1 - lx, PANEL_HEIGHT - 1 - ly)
  | 3 => (ly, PANEL_HEIGHT - 1 - lx)
  | _ + 4 => (lx, ly)

/-- The physical-corner `switch` of `mapCoordinates`: chain positions 0-3
map to the four panel corners.  The C `switch` has no default (positions
outside 0-3 would leave the variables uninitialized); only 0-3 occur in
`PANEL_CONFIGS`, and we model the unreachable branch as the origin. -/
def physicalOrigin (physicalPosition : Nat) : Nat × Nat :=
  match physicalPosition with
  | 0 => (0, 0)
  | 1 => (PANEL_WIDTH, 0)
  | 2 => (PANEL_WIDTH, PANEL_HEIGHT)
  | 3 => (0, PANEL_HEIGHT)
  | _ + 4 => (0, 0)

/-- `mapCoordinates` from `PanelConfig.h`, restricted to the nonnegative
inputs the claims quantify over (the C version takes `int16_t`; for
in-range inputs its truncating `/` and `%` agree with `Nat` division). -/
def mapCoordinates (x y : Nat) : Nat × Nat :=
  let panel_x := x / PANEL_WIDTH
  let panel_y := y / PANEL_HEIGHT
  let logical_panel := panel_y * 2 + panel_x
  let local_x := x % PANEL_WIDTH
  let local_y := y % PANEL_HEIGHT
  let config := getPanelConfig logical_panel
  let rotated := rotateLocal config.rotation local_x local_y
  let origin := physicalOrigin config.physicalPosition
  (origin.1 + rotated.1, origin.2 + rotated.2)

/-- Well-formedness of a descriptor list in the sense of the layout
invariant: each logical index 0-3 appears exactly once, each physical
position 0-3 appears exactly once, and all rotations are in 0-3. -/
def panelListWellFormed (l : List PanelConfig) : Prop :=
  (∀ i < 4, l.countP (fun c => c.logicalPosition == i) = 1) ∧
  (∀ i < 4, l.countP (fun c => c.physicalPosition == i) = 1) ∧
  (∀ c ∈ l, c.rotation < 4)

instance : DecidablePred panelListWellFormed := fun _ =>
  inferInstanceAs (Decidable (_ ∧ _))

/-! Closed forms of `mapCoordinates` on the four logical panel blocks. -/

/-! ## Cell grids (`src/CellularAutomata.h`) -/

/-- One cell read from a flat row-major buffer, `cells[y * width + x]`.
Out-of-buffer reads default to 0 (none occur for well-formed states). -/
def cellAt (cells : List Nat) (width x y : Nat) : Nat :=
  cells.getD (y * width + x) 0

/-- The eight Moore-neighborhood offsets of the C loops
`for dy = -1..1, dx = -1..1, skip (0,0)`, encoded as `(dx+1, dy+1)` in
loop order. -/
def mooreOffsets : List (Nat × Nat) :=
  [(0, 0), (1, 0), (2, 0), (0, 1), (2, 1), (0, 2), (1, 2), (2, 2)]

/-- Toroidal wrap `(v + dv + size) % size` for an offset `dv ∈ {-1,0,1}`
encoded as `d = dv + 1 ∈ {0,1,2}`. -/
def wrap1 (size v d : Nat) : Nat := (v + d + size - 1) % size

/-- The number of value-1 cells among the eight toroidal Moore neighbors
(the "live"/"on" neighbor count of the claims). -/
def liveMooreCount (cells : List Nat) (w h x y : Nat) : Nat :=
  mooreOffsets.countP
    (fun d => decide (cellAt cells w (wrap1 w x d.1) (wrap1 h y d.2) = 1))

/-! Generic extraction lemmas for the flat-buffer update loops. -/

/-! ## `GameOfLife` (generalized Life-like automaton) -/

/-- The neighbor accumulation of `GameOfLife::update`: the loop adds the
raw values of the eight toroidal Moore neighbors. -/
def lifeNeighborSum (cells : List Nat) (w h x y : Nat) : Nat :=
  (mooreOffsets.map
    (fun d => cellAt cells w (wrap1 w x d.1) (wrap1 h y d.2))).sum

/-- `GameOfLife::update`: one generation.  `birth`/`surv` are the
`birthRules`/`survivalRules` bitmasks; a live (nonzero) cell survives iff
bit `neighbors` of `surv` is set, a dead cell is born iff bit `neighbors`
of `birth` is set. -/
def lifeUpdate (birth surv w h : Nat) (cells : List Nat) : List Nat :=
  (List.range (w * h)).map (fun i =>
    let x := i % w
    let y := i / w
    if cellAt cells w x y ≠ 0 then
      (if surv &&& (1 <<< lifeNeighborSum cells w h x y) ≠ 0 then 1 else 0)
    else
      (if birth &&& (1 <<< lifeNeighborSum cells w h x y) ≠ 0 then 1 else 0))

/-- The named rule sets of `GameOfLife`. -/
inductive RuleSet where
  | CONWAY | DAY_NIGHT | MAZE | MAZECTRIC | ANNEAL | DIAMOEBA
deriving DecidableEq, Repr

/-- The `(birthRules, survivalRules)` bitmask pairs assigned by
`GameOfLife::setRuleSet`. -/
def setRuleSetMasks : RuleSet → Nat × Nat
  | .CONWAY => (1 <<< 3, (1 <<< 2) ||| (1 <<< 3))
  | .DAY_NIGHT =>
      ((1 <<< 3) ||| (1 <<< 6) ||| (1 <<< 7) ||| (1 <<< 8),
       (1 <<< 3) ||| (1 <<< 4) ||| (1 <<< 6) ||| (1 <<< 7) ||| (1 <<< 8))
  | .MAZE =>
      (1 <<< 3,
       (1 <<< 1) ||| (1 <<< 2) ||| (1 <<< 3) ||| (1 <<< 4) ||| (1 <<< 5))
  | .MAZECTRIC =>
      (1 <<< 3, (1 <<< 1) ||| (1 <<< 2) ||| (1 <<< 3) ||| (1 <<< 4))
  | .ANNEAL =>
      ((1 <<< 4) ||| (1 <<< 6) ||| (1 <<< 7) ||| (1 <<< 8),
       (1 <<< 3) ||| (1 <<< 5) ||| (1 <<< 6) ||| (1 <<< 7) ||| (1 <<< 8))
  | .DIAMOEBA =>
      ((1 <<< 3) ||| (1 <<< 5) ||| (1 <<< 6) ||| (1 <<< 7) ||| (1 <<< 8),
       (1 <<< 5) ||| (1 <<< 6) ||| (1 <<< 7) ||| (1 <<< 8))

/-- A standard glider on an otherwise empty toroidal 16×16 grid, with its
tip rows at y = 5..7:  `.X.` / `..X` / `XXX`. -/
def glider16 : List Nat :=
  (List.range 256).map (fun i =>
    let x := i % 16
    let y := i / 16
    if y = 5 ∧ x = 6 then 1
    else if y = 6 ∧ x = 7 then 1
    else if y = 7 ∧ (x = 5 ∨ x = 6 ∨ x = 7) then 1
    else 0)

/-- Toroidal translation of a `w × h` grid by `(dx, dy)` (with
`dx ≤ w`, `dy ≤ h`): cell `(x, y)` of the result is cell
`((x + w - dx) % w, (y + h - dy) % h)` of the input. -/
def translateTorus (w h dx dy : Nat) (cells : List Nat) : List Nat :=
  (List.range (w * h)).map (fun i =>
    cellAt cells w ((i % w + w - dx) % w) ((i / w + h - dy) % h))

/-! ## `BriansBrain` (3-state automaton) -/

/-- `BriansBrain::update`: dying (2) cells turn off, on (1) cells start
dying, and other cells turn on exactly when two of the eight toroidal
Moore neighbors are on (`== 1`; dying neighbors are not counted). -/
def briansBrainUpdate (w h : Nat) (cells : List Nat) : List Nat :=
  (List.range (w * h)).map (fun i =>
    let x := i % w
    let y := i / w
    if cellAt cells w x y = 2 then 0
    else if cellAt cells w x y = 1 then 2
    else
      (if (mooreOffsets.map (fun d =>
            if cellAt cells w (wrap1 w x d.1) (wrap1 h y d.2) = 1 then 1
            else 0)).sum = 2
       then 1 else 0))

/-! ## `CyclicAutomaton` -/

/-- The neighborhood loop offsets of `CyclicAutomaton::update`:
`for dy = -range..range, dx = -range..range, skip (0,0)`, encoded as
`(dx + range, dy + range)` in loop order. -/
def chebyshevOffsets (range : Nat) : List (Nat × Nat) :=
  ((List.range (2 * range + 1)).flatMap (fun dy =>
    (List.range (2 * range + 1)).map (fun dx => (dx, dy)))).filter
      (fun d => !(d.1 == range && d.2 == range))

/-- Toroidal wrap `(v + dv + size) % size` for `dv ∈ [-range, range]`
encoded as `d = dv + range ∈ [0, 2*range]` (exact for `range ≤ size`,
which holds for the configured ranges 1-3 on 64-cell panels). -/
def wrapR (size v d range : Nat) : Nat := (v + d + size - range) % size

/-- Number of cells holding state `cand` among the toroidal neighbors
within Chebyshev radius `range` (the cell itself excluded). -/
def candidateNeighborCount (cells : List Nat) (w h x y range cand : Nat) :
    Nat :=
  (chebyshevOffsets range).countP (fun d =>
    decide (cellAt cells w (wrapR w x d.1 range) (wrapR h y d.2 range) = cand))

/-- `CyclicAutomaton::update`: each cell steps to
`(state + stateSkip) % numStates` when enough neighbors already hold that
candidate state, and otherwise keeps its state; with `variableThreshold`
the per-cell threshold is `1 + (state * 3) / numStates`. -/
def cyclicUpdate (numStates threshold range stateSkip : Nat)
    (variableThreshold : Bool) (w h : Nat) (cells : List Nat) : List Nat :=
  (List.range (w * h)).map (fun i =>
    let x := i % w
    let y := i / w
    let currentState := cellAt cells w x y
    let nextState := (currentState + stateSkip) % numStates
    let currentThreshold :=
      if variableThreshold then 1 + currentState * 3 / numStates
      else threshold
    if ((chebyshevOffsets range).map (fun d =>
          if cellAt cells w (wrapR w x d.1 range) (wrapR h y d.2 range)
              = nextState then 1 else 0)).sum ≥ currentThreshold
    then nextState else currentState)

/-! ## `ElementaryAutomaton` (1D rule automaton) -/

/-- The mutable state of `ElementaryAutomaton` that `update()` touches:
the 8-bit rule, the canvas dimensions, the row cursor and the flat cell
buffer (`width * height` cells, one canvas row per generation). -/
structure ElemState where
  rule : Nat
  width : Nat
  height : Nat
  currentRow : Nat
  cells : List Nat
deriving DecidableEq, Repr

/-- The `left` read of the update loop:
`cells[(currentRow) * width + ((x + width - 1) % width)]` (the code reads
row `currentRow - 1` after incrementing the cursor, i.e. this row). -/
def elemLeft (s : ElemState) (x : Nat) : Nat :=
  s.cells.getD (s.currentRow * s.width + (x + s.width - 1) % s.width) 0

/-- The `center` read of the update loop. -/
def elemCenter (s : ElemState) (x : Nat) : Nat :=
  s.cells.getD (s.currentRow * s.width + x) 0

/-- The `right` read of the update loop:
`cells[currentRow * width + ((x + 1) % width)]`. -/
def elemRight (s : ElemState) (x : Nat) : Nat :=
  s.cells.getD (s.currentRow * s.width + (x + 1) % s.width) 0

/-- The `tempCells` buffer computed by `ElementaryAutomaton::update`: for
each column the rule bit selected by the pattern
`(left << 2) | (center << 1) | right`. -/
def elementaryNextRowCells (s : ElemState) : List Nat :=
  (List.range s.width).map (fun x =>
    (s.rule >>>
        ((elemLeft s x <<< 2) ||| (elemCenter s x <<< 1) ||| elemRight s x))
      &&& 1)

/-- `ElementaryAutomaton::update`.  When the cursor has reached the last
row the C code re-randomizes the rule and calls `init()` (an external
randomized reseeding), modelled as `none`; otherwise the cursor advances
and the computed next generation overwrites the new cursor row. -/
def elementaryUpdate (s : ElemState) : Option ElemState :=
  if s.currentRow ≥ s.height - 1 then
    none
  else
    some { s with
      currentRow := s.currentRow + 1,
      cells := s.cells.take ((s.currentRow + 1) * s.width)
        ++ elementaryNextRowCells s
        ++ s.cells.drop ((s.currentRow + 1) * s.width + s.width) }

/-- A width-65 canvas seeded by `initWithPattern(SINGLE_CELL)`: one live
cell in the middle of row 0 (column 32), cursor at row 0, rule 90. -/
def sierpinskiSeed : ElemState :=
  { rule := 90, width := 65, height := 2, currentRow := 0,
    cells := (List.range (65 * 2)).map (fun i => if i = 32 then 1 else 0) }

/-! ## `BriansBrain` colors (`randomizeColors`) -/

/-- `hsvToRgb` from `CellularAutomata.h` (8-bit HSV to RGB; all
intermediate values fit in 8 bits, so plain `Nat` arithmetic matches the
C `uint8_t` computation). -/
def hsvToRgb (h s v : Nat) : Nat × Nat × Nat :=
  if s = 0 then (v, v, v)
  else
    let region := h / 43
    let remainder := (h - region * 43) * 6
    let p := (v * (255 - s)) >>> 8
    let q := (v * (255 - ((s * remainder) >>> 8))) >>> 8
    let t := (v * (255 - ((s * (255 - remainder)) >>> 8))) >>> 8
    match region with
    | 0 => (v, t, p)
    | 1 => (q, v, p)
    | 2 => (p, v, t)
    | 3 => (p, q, v)
    | 4 => (t, p, v)
    | _ + 5 => (v, p, q)

/-- Modelled from the spec: `color565` of the external display surface
(`Adafruit_Protomatter`, not part of this repository) packs 8-bit RGB
into a 16-bit value — top 5 bits red, middle 6 bits green, bottom 5 bits
blue. -/
def color565 (r g b : Nat) : Nat :=
  ((r >>> 3) <<< 11) ||| ((g >>> 2) <<< 5) ||| (b >>> 3)

/-- The approximate luminance used by `randomizeColors`: the sum of the
unpacked RGB565 fields `(c >> 11) & 0x1F`, `(c >> 5) & 0x3F`, `c & 0x1F`. -/
def brightness565 (c : Nat) : Nat :=
  ((c >>> 11) &&& 31) + ((c >>> 5) &&& 63) + (c &&& 31)

/-- `BriansBrain::randomizeColors` as a function of its three random
draws: `baseHue = random(256)`, `schemeType = random(4)` and — used only
by the high-contrast scheme — `contrastType = random(5)`.  Returns
`(onColor, dyingColor)` after the final conditional swap.  For
`schemeType ≥ 4` the C `switch` would leave the colors unchanged; that
branch is unreachable (`random(4) < 4`) and modelled as `(0, 0)`. -/
def randomizeColors (baseHue schemeType contrastType : Nat) : Nat × Nat :=
  let pre : Nat × Nat :=
    match schemeType with
    | 0 =>
      let c1 := hsvToRgb baseHue 255 255
      let c2 := hsvToRgb ((baseHue + 128) % 256) 255 180
      (color565 c1.1 c1.2.1 c1.2.2, color565 c2.1 c2.2.1 c2.2.2)
    | 1 =>
      let c1 := hsvToRgb baseHue 255 255
      let c2 := hsvToRgb ((baseHue + 30) % 256) 255 180
      (color565 c1.1 c1.2.1 c1.2.2, color565 c2.1 c2.2.1 c2.2.2)
    | 2 =>
      let c1 := hsvToRgb baseHue 255 255
      let c2 := hsvToRgb baseHue 255 150
      (color565 c1.1 c1.2.1 c1.2.2, color565 c2.1 c2.2.1 c2.2.2)
    | 3 =>
      (match contrastType with
       | 0 => (color565 255 255 255, color565 0 0 255)
       | 1 => (color565 255 255 0, color565 255 0 0)
       | 2 => (color565 0 255 0, color565 180 0 255)
       | 3 => (color565 0 255 255, color565 0 80 255)
       | _ + 4 => (color565 255 150 0, color565 0 180 0))
    | _ + 4 => (0, 0)
  if brightness565 pre.2 > brightness565 pre.1 then (pre.2, pre.1) else pre

/-! ## Pattern placement (`GameOfLife::addPattern`,
`BubblingLava::addStablePattern`) -/

/-- The logical coordinates written by `GameOfLife::addPattern` for a
given pattern roll (`random(8)`) and anchor `(px, py)` (each C statement
`cells[(py+dy)*width + (px+dx)] = v` contributes `(px+dx, py+dy)`, in
execution order; the glider case also assigns zeros, which are writes
too).  Patterns 3-5 (Gosper gun, pulsar, pentadecathlon) are guarded by
the explicit bound checks of the source and otherwise skip placement. -/
def addPatternWrites (pattern px py width height : Nat) : List (Nat × Nat) :=
  match pattern with
  | 0 =>
      [(px, py), (px + 1, py), (px + 2, py),
       (px, py + 1), (px + 1, py + 1), (px + 2, py + 1),
       (px, py + 2), (px + 1, py + 2), (px + 2, py + 2)]
  | 1 => [(px, py), (px + 1, py), (px + 2, py)]
  | 2 => [(px, py), (px + 1, py), (px, py + 1), (px + 1, py + 1)]
  | 3 =>
      if px < width - 36 ∧ py < height - 9 then
        [(px, py + 4), (px + 1, py + 4), (px, py + 5), (px + 1, py + 5),
         (px + 12, py + 2), (px + 13, py + 2), (px + 11, py + 3),
         (px + 15, py + 3), (px + 10, py + 4), (px + 16, py + 4),
         (px + 10, py + 5), (px + 14, py + 5), (px + 16, py + 5),
         (px + 17, py + 5), (px + 10, py + 6), (px + 16, py + 6),
         (px + 11, py + 7), (px + 15, py + 7), (px + 12, py + 8),
         (px + 13, py + 8),
         (px + 24, py), (px + 22, py + 1), (px + 24, py + 1),
         (px + 20, py + 2), (px + 21, py + 2), (px + 20, py + 3),
         (px + 21, py + 3), (px + 20, py + 4), (px + 21, py + 4),
         (px + 22, py + 5), (px + 24, py + 5), (px + 24, py + 6),
         (px + 34, py + 2), (px + 35, py + 2), (px + 34, py + 3),
         (px + 35, py + 3)]
      else []
  | 4 =>
      if px < width - 15 ∧ py < height - 15 then
        ((List.range 3).flatMap (fun i2 =>
          (List.range 3).flatMap (fun j =>
            [(px + j + 1, py + (i2 + 2)), (px + j + 8, py + (i2 + 2)),
             (px + j + 1, py + (i2 + 2) + 8), (px + j + 8, py + (i2 + 2) + 8)])))
        ++ ((List.range 3).flatMap (fun i =>
          (List.range 3).flatMap (fun j2 =>
            [(px + (j2 + 2), py + i + 1), (px + (j2 + 2) + 8, py + i + 1),
             (px + (j2 + 2), py + i + 8), (px + (j2 + 2) + 8, py + i + 8)])))
      else []
  | 5 =>
      if px < width - 10 ∧ py < height - 10 then
        ((List.range 8).map (fun i => (px + i + 1, py + 1)))
        ++ [(px + 3, py), (px + 6, py), (px + 3, py + 2), (px + 6, py + 2)]
      else []
  | 6 =>
      [(px + 1, py), (px + 2, py), (px, py + 1), (px + 1, py + 1),
       (px + 1, py + 2)]
  | 7 =>
      [(px + 1, py), (px + 3, py + 1), (px, py + 2), (px + 1, py + 2),
       (px + 4, py + 2), (px + 5, py + 2), (px + 6, py + 2)]
  | _ + 8 => []

/-- The logical coordinates written by `BubblingLava::addStablePattern`
for a given pattern roll (`random(10)`) and anchor `(px, py)`.  None of
its cases carries a bound check. -/
def addStablePatternWrites (patternType px py : Nat) : List (Nat × Nat) :=
  match patternType with
  | 0 => [(px, py), (px + 1, py), (px, py + 1), (px + 1, py + 1)]
  | 1 => [(px, py), (px + 1, py), (px + 2, py)]
  | 2 =>
      [(px, py), (px + 1, py), (px + 2, py),
       (px, py + 1), (px + 1, py + 1), (px + 2, py + 1),
       (px, py + 2), (px + 1, py + 2), (px + 2, py + 2)]
  | 3 =>
      [(px + 1, py), (px + 2, py), (px, py + 1), (px + 3, py + 1),
       (px + 1, py + 2), (px + 2, py + 2)]
  | 4 =>
      [(px + 1, py), (px + 2, py), (px + 3, py),
       (px, py + 1), (px + 1, py + 1), (px + 2, py + 1)]
  | 5 =>
      [(px, py), (px + 1, py), (px, py + 1), (px + 1, py + 1),
       (px + 2, py + 2), (px + 3, py + 2), (px + 2, py + 3), (px + 3, py + 3)]
  | 6 =>
      [(px + 2, py), (px + 3, py), (px + 4, py),
       (px + 8, py), (px + 9, py), (px + 10, py),
       (px + 2, py + 5), (px + 3, py + 5), (px + 4, py + 5),
       (px + 8, py + 5), (px + 9, py + 5), (px + 10, py + 5),
       (px + 2, py + 7), (px + 3, py + 7), (px + 4, py + 7),
       (px + 8, py + 7), (px + 9, py + 7), (px + 10, py + 7),
       (px + 2, py + 12), (px + 3, py + 12), (px + 4, py + 12),
       (px + 8, py + 12), (px + 9, py + 12), (px + 10, py + 12),
       (px, py + 2), (px, py + 3), (px, py + 4),
       (px, py + 8), (px, py + 9), (px, py + 10),
       (px + 5, py + 2), (px + 5, py + 3), (px + 5, py + 4),
       (px + 5, py + 8), (px + 5, py + 9), (px + 5, py + 10),
       (px + 7, py + 2), (px + 7, py + 3), (px + 7, py + 4),
       (px + 7, py + 8), (px + 7, py + 9), (px + 7, py + 10),
       (px + 12, py + 2), (px + 12, py + 3), (px + 12, py + 4),
       (px + 12, py + 8), (px + 12, py + 9), (px + 12, py + 10)]
  | 7 =>
      ((List.range 8).map (fun i => (px + i + 1, py + 1)))
      ++ [(px + 3, py), (px + 6, py), (px + 3, py + 2), (px + 6, py + 2)]
  | 8 =>
      [(px + 1, py), (px + 2, py), (px, py + 1), (px + 3, py + 1),
       (px, py + 2), (px + 3, py + 2), (px + 1, py + 3), (px + 2, py + 3)]
  | 9 =>
      [(px, py), (px + 1, py), (px + 2, py),
       (px + 4, py + 3), (px + 4, py + 4), (px + 4, py + 5),
       (px, py + 7), (px + 1, py + 7), (px + 2, py + 7)]
  | _ + 10 => []

/-! ## `OrderAndChaos` cell-origin buffer -/

/-- The declared capacity of `OrderAndChaos::cellOrigins`
(`uint8_t cellOrigins[128*128]`), a fixed-size member although the
constructor accepts arbitrary `width`/`height`. -/
def cellOriginsCapacity : Nat := 128 * 128

/-- The flat index `y * width + x` used by `OrderAndChaos::init`,
`updateGameOfLife`, `checkCollisions` and `render` to address both
`cells` and `cellOrigins`. -/
def cellGridIndex (width x y : Nat) : Nat := y * width + x

/-- The `cellOrigins` indices touched by the full-canvas loops of
`OrderAndChaos::render` (`for y < height, for x < width`). -/
def renderOriginIndices (width height : Nat) : List Nat :=
  (List.range height).flatMap (fun y =>
    (List.range width).map (fun x => cellGridIndex width x y))

/-! ## `GameOfLife::setCustomRules` ("Bx/Sy" parsing) -/

/-- `strchr`: the suffix of the character list starting at the first
occurrence of `c`, or `none` when `c` does not occur. -/
def strchrSuffix (l : List Char) (c : Char) : Option (List Char) :=
  match l with
  | [] => none
  | a :: rest => if a = c then some (a :: rest) else strchrSuffix rest c

/-- One parse loop of `setCustomRules`
(`while (*p && *p != stop) { if ('0' <= *p && *p <= '8') acc |= 1 << (*p - '0'); p++; }`),
with character comparisons on the code points (`'0'` = 48, `'8'` = 56). -/
def parseRuleDigits (l : List Char) (stop : Char) (acc : Nat) : Nat :=
  match l with
  | [] => acc
  | a :: rest =>
    if a = stop then acc
    else parseRuleDigits rest stop
      (if 48 ≤ a.toNat ∧ a.toNat ≤ 56 then acc ||| (1 <<< (a.toNat - 48))
       else acc)

/-- `GameOfLife::setCustomRules`, returning the
`(birthRules, survivalRules)` pair.  The digits are parsed only when both
a `'B'` and an `'S'` occur anywhere in the string; the birth scan runs
from after the first `'B'` to the next `'/'` (or the end), the survival
scan from after the first `'S'` to the next `' '` (or the end). -/
def setCustomRules (ruleString : String) : Nat × Nat :=
  match strchrSuffix ruleString.toList 'B', strchrSuffix ruleString.toList 'S' with
  | some birthPart, some survivalPart =>
      (parseRuleDigits birthPart.tail '/' 0,
       parseRuleDigits survivalPart.tail ' ' 0)
  | _, _ => (0, 0)

/-- The characters the birth scan of `setCustomRules` walks over: after
the first `'B'`, up to the next `'/'` (or the end of the string). -/
def birthSection (s : String) : List Char :=
  (((strchrSuffix s.toList 'B').getD []).tail).takeWhile (fun a => !(a == '/'))

/-- The characters the survival scan of `setCustomRules` walks over:
after the first `'S'`, up to the next `' '` (or the end of the string). -/
def survivalSection (s : String) : List Char :=
  (((strchrSuffix s.toList 'S').getD []).tail).takeWhile (fun a => !(a == ' '))

/-! ## Lemmas and claim theorems -/

lemma mapCoordinates_block_tl {x y : Nat} (hx : x < 64) (hy : y < 64) :
    mapCoordinates x y = (x, 64 + y) := by
  have hdx : x / 64 = 0 := by omega
  have hdy : y / 64 = 0 := by omega
  have hmx : x % 64 = x := by omega
  have hmy : y % 64 = y := by omega
  simp only [mapCoordinates, PANEL_WIDTH, PANEL_HEIGHT, hdx, hdy, hmx, hmy]
  show (0 + x, 64 + y) = (x, 64 + y)
  exact Prod.ext_iff.mpr ⟨by omega, by omega⟩

lemma mapCoordinates_block_tr {x y : Nat} (hx1 : 64 ≤ x) (hx2 : x < 128)
    (hy : y < 64) : mapCoordinates x y = (x, y) := by
  have hdx : x / 64 = 1 := by omega
  have hdy : y / 64 = 0 := by omega
  have hmx : x % 64 = x - 64 := by omega
  have hmy : y % 64 = y := by omega
  simp only [mapCoordinates, PANEL_WIDTH, PANEL_HEIGHT, hdx, hdy, hmx, hmy]
  show (64 + (x - 64), 0 + y) = (x, y)
  exact Prod.ext_iff.mpr ⟨by omega, by omega⟩

lemma mapCoordinates_block_bl {x y : Nat} (hx : x < 64) (hy1 : 64 ≤ y)
    (hy2 : y < 128) : mapCoordinates x y = (64 + x, y) := by
  have hdx : x / 64 = 0 := by omega
  have hdy : y / 64 = 1 := by omega
  have hmx : x % 64 = x := by omega
  have hmy : y % 64 = y - 64 := by omega
  simp only [mapCoordinates, PANEL_WIDTH, PANEL_HEIGHT, hdx, hdy, hmx, hmy]
  show (64 + x, 64 + (y - 64)) = (64 + x, y)
  exact Prod.ext_iff.mpr ⟨by omega, by omega⟩

lemma mapCoordinates_block_br {x y : Nat} (hx1 : 64 ≤ x) (hx2 : x < 128)
    (hy1 : 64 ≤ y) (hy2 : y < 128) :
    mapCoordinates x y = (x - 64, y - 64) := by
  have hdx : x / 64 = 1 := by omega
  have hdy : y / 64 = 1 := by omega
  have hmx : x % 64 = x - 64 := by omega
  have hmy : y % 64 = y - 64 := by omega
  simp only [mapCoordinates, PANEL_WIDTH, PANEL_HEIGHT, hdx, hdy, hmx, hmy]
  show (0 + (x - 64), 0 + (y - 64)) = (x - 64, y - 64)
  exact Prod.ext_iff.mpr ⟨by omega, by omega⟩

/-- Closed form of `mapCoordinates` on the full logical canvas, obtained
from the four per-block computations. -/
lemma mapCoordinates_closed_form {x y : Nat} (hx : x < 128) (hy : y < 128) :
    mapCoordinates x y =
      if x < 64 then
        (if y < 64 then (x, 64 + y) else (64 + x, y))
      else
        (if y < 64 then (x, y) else (x - 64, y - 64)) := by
  rcases Nat.lt_or_ge x 64 with h1 | h1 <;> rcases Nat.lt_or_ge y 64 with h2 | h2
  · rw [mapCoordinates_block_tl h1 h2, if_pos h1, if_pos h2]
  · rw [mapCoordinates_block_bl h1 h2 hy, if_pos h1, if_neg (by omega)]
  · rw [mapCoordinates_block_tr h1 hx h2, if_neg (by omega), if_pos h2]
  · rw [mapCoordinates_block_br h1 hx h2 hy, if_neg (by omega), if_neg (by omega)]

lemma mapCoordinates_lt {x y : Nat} (hx : x < TOTAL_WIDTH)
    (hy : y < TOTAL_HEIGHT) :
    (mapCoordinates x y).1 < TOTAL_WIDTH ∧
      (mapCoordinates x y).2 < TOTAL_HEIGHT := by
  have hx' : x < 128 := hx
  have hy' : y < 128 := hy
  rw [TOTAL_WIDTH, TOTAL_HEIGHT, PANEL_WIDTH, PANEL_HEIGHT,
    mapCoordinates_closed_form hx' hy']
  split_ifs <;> dsimp only <;> omega

lemma mapCoordinates_injOn {x1 y1 x2 y2 : Nat}
    (hx1 : x1 < 128) (hy1 : y1 < 128) (hx2 : x2 < 128) (hy2 : y2 < 128)
    (h : mapCoordinates x1 y1 = mapCoordinates x2 y2) :
    x1 = x2 ∧ y1 = y2 := by
  rw [mapCoordinates_closed_form hx1 hy1, mapCoordinates_closed_form hx2 hy2] at h
  split_ifs at h <;> (rw [Prod.mk.injEq] at h; omega)

set_option maxRecDepth 4000 in
/-- C1: for the compiled-in `PANEL_CONFIGS` — a well-formed descriptor
list — `mapCoordinates` restricted to logical coordinates
`[0, TOTAL_WIDTH) × [0, TOTAL_HEIGHT)` is a bijection onto the physical
canvas `[0, TOTAL_WIDTH) × [0, TOTAL_HEIGHT)`: all
`TOTAL_WIDTH * TOTAL_HEIGHT` logical coordinates yield distinct physical
coordinates covering the physical canvas exactly once. -/
theorem mapCoordinates_bijective_on_canvas :
    panelListWellFormed PANEL_CONFIGS ∧
    Set.InjOn (fun p : Nat × Nat => mapCoordinates p.1 p.2)
      ((Finset.range TOTAL_WIDTH ×ˢ Finset.range TOTAL_HEIGHT) : Finset (Nat × Nat)) ∧
    Finset.image (fun p : Nat × Nat => mapCoordinates p.1 p.2)
      (Finset.range TOTAL_WIDTH ×ˢ Finset.range TOTAL_HEIGHT)
      = Finset.range TOTAL_WIDTH ×ˢ Finset.range TOTAL_HEIGHT := by
  have hmem : ∀ p : Nat × Nat,
      p ∈ (Finset.range TOTAL_WIDTH ×ˢ Finset.range TOTAL_HEIGHT) ↔
        p.1 < 128 ∧ p.2 < 128 := by
    intro p
    rw [Finset.mem_product, Finset.mem_range, Finset.mem_range]
    exact Iff.rfl
  have hinj : Set.InjOn (fun p : Nat × Nat => mapCoordinates p.1 p.2)
      ((Finset.range TOTAL_WIDTH ×ˢ Finset.range TOTAL_HEIGHT) : Finset (Nat × Nat)) := by
    intro p hp q hq heq
    rw [Finset.mem_coe, hmem] at hp hq
    have hco := mapCoordinates_injOn hp.1 hp.2 hq.1 hq.2 heq
    exact Prod.ext_iff.mpr hco
  refine ⟨by decide, hinj, ?_⟩
  apply Finset.eq_of_subset_of_card_le
  · intro b hb
    rw [Finset.mem_image] at hb
    obtain ⟨a, ha, rfl⟩ := hb
    rw [hmem] at ha
    rw [hmem]
    exact mapCoordinates_lt ha.1 ha.2
  · exact le_of_eq (Finset.card_image_of_injOn hinj).symm

/-- C7: `getPanelConfig` never fails: an index that matches the
`logicalPosition` of some entry of `PANEL_CONFIGS` returns that entry,
and every other index falls back to the first descriptor
`PANEL_CONFIGS[0]`. -/
theorem getPanelConfig_total (n : Nat) :
    (∀ c ∈ PANEL_CONFIGS, c.logicalPosition = n → getPanelConfig n = c) ∧
      ((∀ c ∈ PANEL_CONFIGS, c.logicalPosition ≠ n) →
        getPanelConfig n = PANEL_CONFIGS.headD ⟨0, 0, 0⟩) := by
  rcases Nat.lt_or_ge n 4 with h | h
  · interval_cases n <;> exact ⟨by decide, by decide⟩
  · constructor
    · intro c hc hlog
      exfalso
      have : c.logicalPosition < 4 := by
        simp only [PANEL_CONFIGS, List.mem_cons, List.mem_singleton] at hc
        rcases hc with rfl | rfl | rfl | rfl | h0
        · decide
        · decide
        · decide
        · decide
        · exact absurd h0 (List.not_mem_nil c)
      omega
    · intro _
      have h0 : ((⟨0, 3, 0⟩ : PanelConfig).logicalPosition == n) = false := by
        simp only [beq_eq_false_iff_ne]; intro hc; omega
      have h1 : ((⟨1, 1, 0⟩ : PanelConfig).logicalPosition == n) = false := by
        simp only [beq_eq_false_iff_ne]; intro hc; omega
      have h2 : ((⟨2, 2, 0⟩ : PanelConfig).logicalPosition == n) = false := by
        simp only [beq_eq_false_iff_ne]; intro hc; omega
      have h3 : ((⟨3, 0, 0⟩ : PanelConfig).logicalPosition == n) = false := by
        simp only [beq_eq_false_iff_ne]; intro hc; omega
      simp [getPanelConfig, PANEL_CONFIGS, List.find?, h0, h1, h2, h3]

/-- Witness for C7 at concrete indices: logical index 2 returns its own
entry, and the out-of-range index 7 falls back to `PANEL_CONFIGS[0]`. -/
theorem getPanelConfig_total_witness :
    getPanelConfig 2 = ⟨2, 2, 0⟩ ∧ getPanelConfig 7 = ⟨0, 3, 0⟩ :=
  ⟨(getPanelConfig_total 2).1 ⟨2, 2, 0⟩ (by decide) rfl,
   (getPanelConfig_total 7).2 (by decide)⟩

lemma getD_map_range (n i : Nat) (f : Nat → Nat) (hi : i < n) :
    ((List.range n).map f).getD i 0 = f i := by
  rw [List.getD_eq_getElem?_getD, List.getElem?_map, List.getElem?_range hi]
  rfl

lemma index_lt {x y w h : Nat} (hx : x < w) (hy : y < h) :
    y * w + x < w * h := by
  calc y * w + x < y * w + w := by omega
    _ = (y + 1) * w := by ring
    _ ≤ h * w := Nat.mul_le_mul_right w hy
    _ = w * h := Nat.mul_comm h w

lemma index_mod {x y w : Nat} (hx : x < w) : (y * w + x) % w = x := by
  rw [Nat.add_comm, Nat.add_mul_mod_self_right, Nat.mod_eq_of_lt hx]

lemma index_div {x y w : Nat} (hx : x < w) : (y * w + x) / w = y := by
  have hw : 0 < w := Nat.zero_lt_of_lt hx
  rw [Nat.add_comm, Nat.add_mul_div_right _ _ hw, Nat.div_eq_of_lt hx,
    Nat.zero_add]

lemma cellAt_le_one {cells : List Nat} (hv : ∀ v ∈ cells, v ≤ 1)
    (w x y : Nat) : cellAt cells w x y ≤ 1 := by
  rw [cellAt]
  rcases Nat.lt_or_ge (y * w + x) cells.length with h | h
  · rw [List.getD_eq_getElem?_getD, List.getElem?_eq_getElem h, Option.getD_some]
    exact hv _ (List.getElem_mem h)
  · rw [List.getD_eq_default _ _ h]
    exact Nat.zero_le 1

lemma sum_map_le_one_eq_countP (l : List (Nat × Nat)) (f : Nat × Nat → Nat)
    (hf : ∀ d ∈ l, f d ≤ 1) :
    (l.map f).sum = l.countP (fun d => decide (f d = 1)) := by
  induction l with
  | nil => rfl
  | cons a t ih =>
    have ha := hf a (by simp)
    have ht : ∀ d ∈ t, f d ≤ 1 := fun d hd => hf d (by simp [hd])
    rcases Nat.le_one_iff_eq_zero_or_eq_one.mp ha with h0 | h1
    · simp [List.countP_cons, ih ht, h0]
    · simp [List.countP_cons, ih ht, h1]
      omega

lemma sum_map_ite_eq_countP (l : List (Nat × Nat)) (p : Nat × Nat → Prop)
    [DecidablePred p] :
    (l.map (fun d => if p d then 1 else 0)).sum
      = l.countP (fun d => decide (p d)) := by
  induction l with
  | nil => rfl
  | cons a t ih =>
    by_cases h : p a <;> simp [List.countP_cons, ih, h] <;> omega

lemma ite_one_zero_eq_one (c : Prop) [Decidable c] :
    ((if c then (1 : Nat) else 0) = 1) ↔ c := by
  by_cases h : c <;> simp [h]

lemma and_shiftLeft_ne_zero (m n : Nat) :
    (m &&& (1 <<< n) ≠ 0) ↔ m.testBit n := by
  rw [Nat.shiftLeft_eq, one_mul, Nat.and_two_pow]
  cases hb : m.testBit n
  · simp
  · simp [(Nat.two_pow_pos n).ne']

lemma lifeUpdate_cellAt (birth surv : Nat) {w h : Nat} (cells : List Nat)
    {x y : Nat} (hx : x < w) (hy : y < h) :
    cellAt (lifeUpdate birth surv w h cells) w x y =
      (if cellAt cells w x y ≠ 0 then
        (if surv &&& (1 <<< lifeNeighborSum cells w h x y) ≠ 0 then 1 else 0)
      else
        (if birth &&& (1 <<< lifeNeighborSum cells w h x y) ≠ 0 then 1
         else 0)) := by
  rw [cellAt, lifeUpdate, getD_map_range _ _ _ (index_lt hx hy)]
  simp only [index_mod hx, index_div hx]

lemma lifeNeighborSum_eq_liveMooreCount {cells : List Nat}
    (hv : ∀ v ∈ cells, v ≤ 1) (w h x y : Nat) :
    lifeNeighborSum cells w h x y = liveMooreCount cells w h x y := by
  rw [lifeNeighborSum, liveMooreCount]
  exact sum_map_le_one_eq_countP _ _ (fun d _ => cellAt_le_one hv w _ _)

set_option maxRecDepth 8000 in
/-- C3: `GameOfLife::update` sets a cell to 1 iff, with `n` the number of
live cells among its 8 toroidal Moore neighbors, either the cell is alive
and bit `n` of `survivalRules` is set, or the cell is dead and bit `n` of
`birthRules` is set; the CONWAY rule set is exactly B3/S23; and under it
the standard glider translates by `(1,1)` every 4 update steps on a
toroidal 16×16 grid. -/
theorem gameOfLife_update_spec :
    (∀ birth surv w h cells x y, x < w → y < h → (∀ v ∈ cells, v ≤ 1) →
      (cellAt (lifeUpdate birth surv w h cells) w x y = 1 ↔
        ((cellAt cells w x y = 1 ∧
            surv.testBit (liveMooreCount cells w h x y)) ∨
         (cellAt cells w x y = 0 ∧
            birth.testBit (liveMooreCount cells w h x y))))) ∧
    (∀ k < 16, ((setRuleSetMasks .CONWAY).1.testBit k ↔ k = 3) ∧
      ((setRuleSetMasks .CONWAY).2.testBit k ↔ (k = 2 ∨ k = 3))) ∧
    ((lifeUpdate (setRuleSetMasks .CONWAY).1 (setRuleSetMasks .CONWAY).2
        16 16)^[4] glider16 = translateTorus 16 16 1 1 glider16) := by
  refine ⟨?_, by decide, by decide⟩
  intro birth surv w h cells x y hx hy hv
  have hle := cellAt_le_one hv w x y
  rw [lifeUpdate_cellAt birth surv cells hx hy,
    lifeNeighborSum_eq_liveMooreCount hv]
  rcases Nat.le_one_iff_eq_zero_or_eq_one.mp hle with h0 | h1
  · rw [h0, if_neg (by omega), ite_one_zero_eq_one, and_shiftLeft_ne_zero]
    simp
  · rw [h1, if_pos (by omega), ite_one_zero_eq_one, and_shiftLeft_ne_zero]
    simp

/-- Witness for C3 instantiating the pointwise part on a concrete 3×3
grid (a vertical pair next to the centre cell) under Conway masks. -/
theorem gameOfLife_update_spec_witness :
    cellAt (lifeUpdate 8 12 3 3 [0, 1, 0, 0, 1, 0, 0, 0, 0]) 3 1 1 = 1 ↔
      ((cellAt [0, 1, 0, 0, 1, 0, 0, 0, 0] 3 1 1 = 1 ∧
          Nat.testBit 12 (liveMooreCount [0, 1, 0, 0, 1, 0, 0, 0, 0] 3 3 1 1)) ∨
       (cellAt [0, 1, 0, 0, 1, 0, 0, 0, 0] 3 1 1 = 0 ∧
          Nat.testBit 8 (liveMooreCount [0, 1, 0, 0, 1, 0, 0, 0, 0] 3 3 1 1))) :=
  gameOfLife_update_spec.1 8 12 3 3 [0, 1, 0, 0, 1, 0, 0, 0, 0] 1 1
    (by decide) (by decide) (by decide)

lemma briansBrainUpdate_cellAt {w h : Nat} (cells : List Nat) {x y : Nat}
    (hx : x < w) (hy : y < h) :
    cellAt (briansBrainUpdate w h cells) w x y =
      (if cellAt cells w x y = 2 then 0
       else if cellAt cells w x y = 1 then 2
       else if liveMooreCount cells w h x y = 2 then 1 else 0) := by
  rw [cellAt, briansBrainUpdate, getD_map_range _ _ _ (index_lt hx hy)]
  simp only [index_mod hx, index_div hx]
  rw [liveMooreCount, ← sum_map_ite_eq_countP mooreOffsets
    (fun d => cellAt cells w (wrap1 w x d.1) (wrap1 h y d.2) = 1)]

/-- C5: in `BriansBrain::update`, on (1) cells become dying (2) and dying
(2) cells become off (0) unconditionally, regardless of neighbor counts;
an off (0) cell becomes on iff exactly 2 of its 8 toroidal Moore
neighbors are on (dying neighbors do not count), else it stays 0. -/
theorem briansBrain_update_spec (w h : Nat) (cells : List Nat) (x y : Nat)
    (hx : x < w) (hy : y < h) :
    (cellAt cells w x y = 1 →
        cellAt (briansBrainUpdate w h cells) w x y = 2) ∧
    (cellAt cells w x y = 2 →
        cellAt (briansBrainUpdate w h cells) w x y = 0) ∧
    (cellAt cells w x y = 0 →
        cellAt (briansBrainUpdate w h cells) w x y =
          (if liveMooreCount cells w h x y = 2 then 1 else 0)) := by
  rw [briansBrainUpdate_cellAt cells hx hy]
  refine ⟨fun h1 => ?_, fun h2 => ?_, fun h0 => ?_⟩
  · rw [h1]; rfl
  · rw [h2]; rfl
  · rw [h0, if_neg (by omega), if_neg (by omega)]

/-- Witness for C5 on a concrete 3×3 grid holding one on cell, one dying
cell and an off centre with exactly two on neighbors. -/
theorem briansBrain_update_spec_witness :
    (cellAt [1, 2, 1, 0, 0, 0, 0, 0, 0] 3 0 0 = 1 →
        cellAt (briansBrainUpdate 3 3 [1, 2, 1, 0, 0, 0, 0, 0, 0]) 3 0 0 = 2) ∧
    (cellAt [1, 2, 1, 0, 0, 0, 0, 0, 0] 3 0 0 = 2 →
        cellAt (briansBrainUpdate 3 3 [1, 2, 1, 0, 0, 0, 0, 0, 0]) 3 0 0 = 0) ∧
    (cellAt [1, 2, 1, 0, 0, 0, 0, 0, 0] 3 0 0 = 0 →
        cellAt (briansBrainUpdate 3 3 [1, 2, 1, 0, 0, 0, 0, 0, 0]) 3 0 0 =
          (if liveMooreCount [1, 2, 1, 0, 0, 0, 0, 0, 0] 3 3 0 0 = 2 then 1
           else 0)) :=
  briansBrain_update_spec 3 3 [1, 2, 1, 0, 0, 0, 0, 0, 0] 0 0
    (by decide) (by decide)

/-- C4: `CyclicAutomaton::update` sets a cell to the candidate state
`(state + stateSkip) % numStates` iff the number of toroidal neighbors
within Chebyshev radius `range` already holding the candidate reaches the
effective threshold (`threshold`, or `1 + state*3/numStates` when
`variableThreshold`), and otherwise keeps the current state. -/
theorem cyclicAutomaton_update_spec (numStates threshold range stateSkip : Nat)
    (variableThreshold : Bool) (w h : Nat) (cells : List Nat) (x y : Nat)
    (hx : x < w) (hy : y < h) :
    cellAt (cyclicUpdate numStates threshold range stateSkip
        variableThreshold w h cells) w x y =
      (if candidateNeighborCount cells w h x y range
            ((cellAt cells w x y + stateSkip) % numStates) ≥
          (if variableThreshold then 1 + cellAt cells w x y * 3 / numStates
           else threshold)
       then (cellAt cells w x y + stateSkip) % numStates
       else cellAt cells w x y) := by
  rw [cellAt, cyclicUpdate, getD_map_range _ _ _ (index_lt hx hy)]
  simp only [index_mod hx, index_div hx]
  rw [candidateNeighborCount, ← sum_map_ite_eq_countP (chebyshevOffsets range)
    (fun d => cellAt cells w (wrapR w x d.1 range) (wrapR h y d.2 range)
      = (cellAt cells w x y + stateSkip) % numStates)]

/-- Witness for C4: the spec example `numStates = 3`, `threshold = 3`,
`range = 1`, `stateSkip = 1` on a 3×3 grid whose centre cell (state 0) has
exactly three neighbors in the candidate state 1. -/
theorem cyclicAutomaton_update_spec_witness :
    cellAt (cyclicUpdate 3 3 1 1 false 3 3 [1, 1, 1, 0, 0, 0, 2, 2, 2]) 3 1 1 =
      (if candidateNeighborCount [1, 1, 1, 0, 0, 0, 2, 2, 2] 3 3 1 1 1
            ((cellAt [1, 1, 1, 0, 0, 0, 2, 2, 2] 3 1 1 + 1) % 3) ≥
          (if false then
            1 + cellAt [1, 1, 1, 0, 0, 0, 2, 2, 2] 3 1 1 * 3 / 3
           else 3)
       then (cellAt [1, 1, 1, 0, 0, 0, 2, 2, 2] 3 1 1 + 1) % 3
       else cellAt [1, 1, 1, 0, 0, 0, 2, 2, 2] 3 1 1) :=
  cyclicAutomaton_update_spec 3 3 1 1 false 3 3 [1, 1, 1, 0, 0, 0, 2, 2, 2]
    1 1 (by decide) (by decide)

/-- C2: when the cursor has not reached the last row,
`ElementaryAutomaton::update` sets the new row's cell at every column `x`
to bit `(left << 2) | (center << 1) | right` of the rule byte, where
`left`, `center`, `right` are the previous row's cells at the toroidally
wrapped columns; in particular for rule 90 (on 0/1 cell values) the new
cell is `left XOR right` — the Sierpinski recurrence. -/
theorem elementaryAutomaton_update_spec (s : ElemState) (x : Nat)
    (hrow : s.currentRow < s.height - 1) (hx : x < s.width)
    (hlen : s.cells.length = s.width * s.height) :
    ∃ t, elementaryUpdate s = some t ∧
      t.currentRow = s.currentRow + 1 ∧
      t.cells.getD ((s.currentRow + 1) * s.width + x) 0 =
        (s.rule >>>
            ((elemLeft s x <<< 2) ||| (elemCenter s x <<< 1) ||| elemRight s x))
          &&& 1 ∧
      (s.rule = 90 → elemLeft s x ≤ 1 → elemCenter s x ≤ 1 →
        elemRight s x ≤ 1 →
        t.cells.getD ((s.currentRow + 1) * s.width + x) 0 =
          elemLeft s x ^^^ elemRight s x) := by
  have hw : 0 < s.width := Nat.zero_lt_of_lt hx
  have hrow1 : s.currentRow + 1 < s.height := by omega
  have htk : ((s.currentRow + 1) * s.width) ≤ s.cells.length := by
    rw [hlen]
    calc (s.currentRow + 1) * s.width ≤ s.height * s.width :=
          Nat.mul_le_mul_right _ (by omega)
      _ = s.width * s.height := Nat.mul_comm _ _
  have hlentk : (s.cells.take ((s.currentRow + 1) * s.width)).length
      = (s.currentRow + 1) * s.width := by
    rw [List.length_take]
    omega
  have hlennext : (elementaryNextRowCells s).length = s.width := by
    rw [elementaryNextRowCells, List.length_map, List.length_range]
  refine ⟨_, by rw [elementaryUpdate, if_neg (by omega)], rfl, ?_⟩
  have hcell : (s.cells.take ((s.currentRow + 1) * s.width)
        ++ elementaryNextRowCells s
        ++ s.cells.drop ((s.currentRow + 1) * s.width + s.width)).getD
          ((s.currentRow + 1) * s.width + x) 0 =
      (s.rule >>>
          ((elemLeft s x <<< 2) ||| (elemCenter s x <<< 1) ||| elemRight s x))
        &&& 1 := by
    rw [List.append_assoc,
      List.getD_append_right _ _ _ _ (by rw [hlentk]; omega), hlentk,
      Nat.add_sub_cancel_left,
      List.getD_append _ _ _ _ (by rw [hlennext]; omega),
      elementaryNextRowCells, getD_map_range _ _ _ hx]
  refine ⟨hcell, fun hr hl hc hrt => ?_⟩
  rw [hcell, hr]
  rcases Nat.le_one_iff_eq_zero_or_eq_one.mp hl with h1 | h1 <;>
    rcases Nat.le_one_iff_eq_zero_or_eq_one.mp hc with h2 | h2 <;>
      rcases Nat.le_one_iff_eq_zero_or_eq_one.mp hrt with h3 | h3 <;>
        rw [h1, h2, h3] <;> rfl

set_option maxRecDepth 8000 in
/-- Witness for C2: one update step of rule 90 on the width-65
single-centre-cell seed, at column 31. -/
theorem elementaryAutomaton_update_spec_witness :
    ∃ t, elementaryUpdate sierpinskiSeed = some t ∧
      t.currentRow = sierpinskiSeed.currentRow + 1 ∧
      t.cells.getD
          ((sierpinskiSeed.currentRow + 1) * sierpinskiSeed.width + 31) 0 =
        (sierpinskiSeed.rule >>>
            ((elemLeft sierpinskiSeed 31 <<< 2) |||
             (elemCenter sierpinskiSeed 31 <<< 1) |||
             elemRight sierpinskiSeed 31)) &&& 1 ∧
      (sierpinskiSeed.rule = 90 → elemLeft sierpinskiSeed 31 ≤ 1 →
        elemCenter sierpinskiSeed 31 ≤ 1 → elemRight sierpinskiSeed 31 ≤ 1 →
        t.cells.getD
            ((sierpinskiSeed.currentRow + 1) * sierpinskiSeed.width + 31) 0 =
          elemLeft sierpinskiSeed 31 ^^^ elemRight sierpinskiSeed 31) :=
  elementaryAutomaton_update_spec sierpinskiSeed 31 (by decide) (by decide)
    (by decide)

set_option maxRecDepth 40000 in
/-- C9 as amended: after `randomizeColors` (hence after every `init()`),
for every randomness outcome and palette strategy the "on" color's
approximate luminance is at least — not always strictly above — the
"dying" color's. -/
theorem randomizeColors_on_not_dimmer :
    ∀ hue < 256, ∀ scheme < 4, ∀ contrast < 5,
      brightness565 (randomizeColors hue scheme contrast).2 ≤
        brightness565 (randomizeColors hue scheme contrast).1 := by
  decide

set_option maxRecDepth 40000 in
/-- Counterexample to C9 as stated: for `baseHue = 157` with the
complementary scheme (`schemeType = 0`), the two generated colors have
equal luminance (52), so the "on" color's luminance does not strictly
exceed the "dying" color's, under every `contrastType` draw. -/
theorem randomizeColors_strict_counterexample :
    brightness565 (randomizeColors 157 0 0).1 = 52 ∧
    brightness565 (randomizeColors 157 0 0).2 = 52 ∧
    ¬ (brightness565 (randomizeColors 157 0 0).2 <
        brightness565 (randomizeColors 157 0 0).1) := by
  decide

/-- Witness for C9 (amended) at a concrete randomness outcome. -/
theorem randomizeColors_on_not_dimmer_witness :
    brightness565 (randomizeColors 157 0 0).2 ≤
      brightness565 (randomizeColors 157 0 0).1 :=
  randomizeColors_on_not_dimmer 157 (by decide) 0 (by decide) 0 (by decide)

/-- C6 fails on the code: on the configured 128×128 canvas,
`BubblingLava::addStablePattern` places its 13-column "pulsar"
(patternType 6) at anchors up to `px = random(width-12)+6 = 121` with no
bound check, writing at `x = px + 12 = 133 ≥ width`; likewise
`GameOfLife::addPattern` places the 7-column acorn (pattern 7) at anchors
up to `px = random(width-10)+5 = 122`, writing at `x = 128 = width`.
Both out-of-row writes land inside the allocated buffer but on the wrong
row. -/
theorem pattern_write_out_of_range :
    ((133, 8) ∈ addStablePatternWrites 6 121 6 ∧ 128 ≤ 133 ∧
      121 = 115 + 6 ∧ 115 < 128 - 12) ∧
    ((128, 7) ∈ addPatternWrites 7 122 5 128 128 ∧ 128 ≤ 128 ∧
      122 = 117 + 5 ∧ 117 < 128 - 10) := by
  decide

/-- C10: every `cellOrigins` access `y * width + x` with `x < width`,
`y < height` is in bounds whenever `width * height ≤ 128 * 128` (so the
configured 128×128 canvas is safe), and for a larger canvas (for example
129×128) a full-canvas access falls outside the array. -/
theorem orderAndChaos_cellOrigins_bounds :
    (∀ w h x y, x < w → y < h → w * h ≤ cellOriginsCapacity →
      cellGridIndex w x y < cellOriginsCapacity) ∧
    (∀ w h, w * h ≤ cellOriginsCapacity →
      ∀ i ∈ renderOriginIndices w h, i < cellOriginsCapacity) ∧
    (∃ w h i, i ∈ renderOriginIndices w h ∧ cellOriginsCapacity ≤ i) := by
  have hpt : ∀ w h x y, x < w → y < h → w * h ≤ cellOriginsCapacity →
      cellGridIndex w x y < cellOriginsCapacity := by
    intro w h x y hx hy hwh
    exact lt_of_lt_of_le (index_lt hx hy) hwh
  refine ⟨hpt, ?_, ?_⟩
  · intro w h hwh i hi
    rw [renderOriginIndices] at hi
    simp only [List.mem_flatMap, List.mem_map, List.mem_range] at hi
    obtain ⟨y, hy, x, hx, rfl⟩ := hi
    exact hpt w h x y hx hy hwh
  · refine ⟨129, 128, 16384, ?_, by rw [cellOriginsCapacity]⟩
    rw [renderOriginIndices]
    simp only [List.mem_flatMap, List.mem_map, List.mem_range]
    exact ⟨127, by omega, 1, by omega, by rw [cellGridIndex]⟩

/-- Witness for C10 at the configured canvas: the last cell of the
128×128 canvas indexes `cellOrigins` in bounds. -/
theorem orderAndChaos_cellOrigins_bounds_witness :
    cellGridIndex 128 127 127 < cellOriginsCapacity :=
  orderAndChaos_cellOrigins_bounds.1 128 128 127 127 (by decide) (by decide)
    (by decide)

lemma testBit_one_shiftLeft (d k : Nat) : (1 <<< d).testBit k ↔ k = d := by
  rw [Nat.shiftLeft_eq, one_mul, Nat.testBit_two_pow]
  exact ⟨fun h => (of_decide_eq_true h).symm,
    fun h => decide_eq_true (by omega)⟩

lemma parseRuleDigits_testBit (l : List Char) (stop : Char) (acc k : Nat) :
    ((parseRuleDigits l stop acc).testBit k ↔
      (acc.testBit k ∨ (k ≤ 8 ∧
        ∃ a ∈ l.takeWhile (fun a => !(a == stop)), a.toNat = 48 + k))) := by
  induction l generalizing acc with
  | nil => simp [parseRuleDigits]
  | cons a rest ih =>
    by_cases hstop : a = stop
    · have htw : (a :: rest).takeWhile (fun a => !(a == stop)) = [] :=
        List.takeWhile_cons_of_neg (by simp [hstop])
      rw [parseRuleDigits, if_pos hstop, htw]
      simp
    · have htw : (a :: rest).takeWhile (fun a => !(a == stop))
          = a :: rest.takeWhile (fun a => !(a == stop)) :=
        List.takeWhile_cons_of_pos (by simp [hstop])
      rw [parseRuleDigits, if_neg hstop, ih, htw]
      by_cases hdig : 48 ≤ a.toNat ∧ a.toNat ≤ 56
      · rw [if_pos hdig]
        simp only [Nat.testBit_or, Bool.or_eq_true, testBit_one_shiftLeft,
          List.mem_cons]
        constructor
        · rintro (⟨hacc | hd⟩ | ⟨hk, b, hb, hcode⟩)
          · exact Or.inl hacc
          · exact Or.inr ⟨by omega, a, Or.inl rfl, by omega⟩
          · exact Or.inr ⟨hk, b, Or.inr hb, hcode⟩
        · rintro (hacc | ⟨hk, b, hb | hb, hcode⟩)
          · exact Or.inl (Or.inl hacc)
          · exact Or.inl (Or.inr (by subst hb; omega))
          · exact Or.inr ⟨hk, b, hb, hcode⟩
      · rw [if_neg hdig]
        simp only [List.mem_cons]
        constructor
        · rintro (hacc | ⟨hk, b, hb, hcode⟩)
          · exact Or.inl hacc
          · exact Or.inr ⟨hk, b, Or.inr hb, hcode⟩
        · rintro (hacc | ⟨hk, b, hb | hb, hcode⟩)
          · exact Or.inl hacc
          · exact absurd (by subst hb; omega : 48 ≤ a.toNat ∧ a.toNat ≤ 56) hdig
          · exact Or.inr ⟨hk, b, hb, hcode⟩

/-- C8 as amended: `setCustomRules` never fails on any input string, but
digits are honored only when both a `'B'` and an `'S'` marker occur in
the string: then `birthRules` holds exactly the digits 0-8 found between
the first `'B'` and the next `'/'` (or the end), and `survivalRules`
exactly the digits 0-8 found after the first `'S'` up to the next space
(or the end); when either marker is missing, both bitmasks stay empty —
including the digits of a present `'B'` section. -/
theorem setCustomRules_spec (s : String) :
    ((strchrSuffix s.toList 'B').isSome → (strchrSuffix s.toList 'S').isSome →
      (∀ k, (setCustomRules s).1.testBit k ↔
        (k ≤ 8 ∧ ∃ a ∈ birthSection s, a.toNat = 48 + k)) ∧
      (∀ k, (setCustomRules s).2.testBit k ↔
        (k ≤ 8 ∧ ∃ a ∈ survivalSection s, a.toNat = 48 + k))) ∧
    ((strchrSuffix s.toList 'B') = none ∨ (strchrSuffix s.toList 'S') = none →
      setCustomRules s = (0, 0)) := by
  cases hB : strchrSuffix s.toList 'B' with
  | none =>
    refine ⟨fun hBs _ => absurd hBs (by simp [hB]), fun _ => ?_⟩
    rw [setCustomRules, hB]
  | some birthPart =>
    cases hS : strchrSuffix s.toList 'S' with
    | none =>
      refine ⟨fun _ hSs => absurd hSs (by simp [hS]), fun _ => ?_⟩
      rw [setCustomRules, hB, hS]
    | some survivalPart =>
      constructor
      · intro _ _
        constructor
        · intro k
          rw [setCustomRules, hB, hS]
          show (parseRuleDigits birthPart.tail '/' 0).testBit k ↔
            k ≤ 8 ∧ ∃ a ∈ birthSection s, a.toNat = 48 + k
          rw [parseRuleDigits_testBit, birthSection, hB]
          simp [Nat.zero_testBit]
        · intro k
          rw [setCustomRules, hB, hS]
          show (parseRuleDigits survivalPart.tail ' ' 0).testBit k ↔
            k ≤ 8 ∧ ∃ a ∈ survivalSection s, a.toNat = 48 + k
          rw [parseRuleDigits_testBit, survivalSection, hS]
          simp [Nat.zero_testBit]
      · intro hcon
        rcases hcon with hc | hc
        · exact Option.noConfusion hc
        · exact Option.noConfusion hc

/-- Witness for C8 (amended) on the concrete input `"B36/S23"`: birth
digits {3, 6}, survival digits {2, 3}. -/
theorem setCustomRules_spec_witness :
    ((setCustomRules "B36/S23").1.testBit 6 ↔
      (6 ≤ 8 ∧ ∃ a ∈ birthSection "B36/S23", a.toNat = 48 + 6)) ∧
    ((setCustomRules "B36/S23").2.testBit 4 ↔
      (4 ≤ 8 ∧ ∃ a ∈ survivalSection "B36/S23", a.toNat = 48 + 4)) :=
  ⟨((setCustomRules_spec "B36/S23").1 (by decide) (by decide)).1 6,
   ((setCustomRules_spec "B36/S23").1 (by decide) (by decide)).2 4⟩

/-- Counterexample to C8 as stated: on the input `"B3/"` the digit 3 does
occur between the `'B'` marker and the following `'/'`, yet — the `'S'`
marker being absent — the code leaves `birthRules` (and `survivalRules`)
empty rather than parsing the digits that are present. -/
theorem setCustomRules_counterexample :
    birthSection "B3/" = ['3'] ∧ ('3').toNat = 48 + 3 ∧
    setCustomRules "B3/" = (0, 0) ∧
    ¬ (setCustomRules "B3/").1.testBit 3 := by
  decide
